import Mathlib

/-!
Shallow embedding of the `pyzdc` repository (files `dq_sus/get_info/get_info.py`
and `src/transform/transform_columns.py`) and proofs about the claims of its
specification.

External collaborators (the SINAN data source, the `unidecode` library, the
filesystem and the DuckDB engine) are modelled as explicit parameters: a
function producing the file list, an arbitrary accent-stripping function, a
path-indexed file loader, and a transactional schema state.
-/

namespace Pyzdc

/-! ## `get_info.py`: `get_years` -/

/-- The `valid_diseases` dict of `get_years`, in insertion order. -/
def valid_diseases : List (String × String) :=
  [("DENG", "dengue"), ("ZIKA", "zika"), ("CHIK", "chikungunya")]

/-- The fixed error message returned for an invalid disease argument. -/
def errorMsg : String := "Error: Only DENG, ZIKA, and CHIK are allowed."

/-- The check `any(disease_code not in valid_diseases for disease_code in disease)`:
Python iterates over the characters of the string `disease`, and each
one-character string is tested for membership among the dict keys. -/
def invalidCheck (disease : String) : Bool :=
  disease.data.any fun c => (valid_diseases.lookup (String.mk [c])).isNone

/-- Whether the four characters start a regex match: letter B, letter R,
then two digit characters. -/
def isFragStart (c1 c2 c3 c4 : Char) : Bool :=
  c1 = 'B' && c2 = 'R' && c3.isDigit && c4.isDigit

/-- The integer value of the two captured digit characters (`int(match.group(1))`). -/
def fragVal (a b : Char) : Nat :=
  (a.toNat - 48) * 10 + (b.toNat - 48)

/-- The model of the regex search over the character list of a filename:
scan left to right for the first position where `B`, `R` and two digits
occur, returning the captured two-digit value. -/
def brMatch : List Char → Option Nat
  | c1 :: c2 :: c3 :: c4 :: rest =>
    if isFragStart c1 c2 c3 c4 then some (fragVal c3 c4)
    else brMatch (c2 :: c3 :: c4 :: rest)
  | _ => none

/-- The regex search applied to a filename string. -/
def searchBR (file : String) : Option Nat := brMatch file.data

/-- The `years` list of `get_years`: for each file with a `BR` fragment, the
captured value plus 2000, sorted ascending (`sorted(...)`). -/
def yearsOf (files : List String) : List Nat :=
  List.insertionSort (· ≤ ·)
    (files.filterMap fun f => (searchBR f).map (· + 2000))

/-- The comma-joined disease names: the dict values looked up for each
character of `disease` (a lookup can only succeed for a character that is a
whole dict key, which never happens; on the branch where this runs,
`disease` is empty). -/
def availableNames (disease : String) : List String :=
  disease.data.filterMap fun c => valid_diseases.lookup (String.mk [c])

/-- The embedding of `get_years`. The SINAN file index is the external
parameter `getFiles` (`sinan.get_files(dis_code=[disease])`). -/
def get_years (getFiles : String → List String) (disease : String) : String :=
  if invalidCheck disease then errorMsg
  else
    let years := yearsOf (getFiles disease)
    let available_diseases := String.intercalate ", " (availableNames disease)
    let available_years := String.intercalate ", " (years.map toString)
    "The available data for " ++ available_diseases ++
      " is from the years: " ++ available_years ++ "."

/-- The ten distinct characters occurring in the valid codes DENG, ZIKA, CHIK. -/
def validCodeChars : List Char :=
  ['D', 'E', 'N', 'G', 'Z', 'I', 'K', 'A', 'C', 'H']

theorem singleton_lookup_none (c : Char) :
    (valid_diseases.lookup (String.mk [c])).isNone := by
  have h : ∀ s : String, s ∈ ["DENG", "ZIKA", "CHIK"] → String.mk [c] ≠ s := by
    intro s hs he
    have hd : ([c] : List Char).length = s.data.length := by rw [← he]
    fin_cases hs <;> simp at hd
  have h1 : (String.mk [c] == "DENG") = false :=
    beq_eq_false_iff_ne.mpr (h "DENG" (by simp))
  have h2 : (String.mk [c] == "ZIKA") = false :=
    beq_eq_false_iff_ne.mpr (h "ZIKA" (by simp))
  have h3 : (String.mk [c] == "CHIK") = false :=
    beq_eq_false_iff_ne.mpr (h "CHIK" (by simp))
  simp only [valid_diseases, List.lookup, h1, h2, h3]
  rfl

theorem invalidCheck_of_ne_empty (disease : String) (h : disease ≠ "") :
    invalidCheck disease = true := by
  have hd : disease.data ≠ [] := by
    intro hnil
    exact h (by cases disease; simpa using congrArg String.mk hnil)
  obtain ⟨c, rest, hcr⟩ := List.exists_cons_of_ne_nil hd
  simp only [invalidCheck, hcr, List.any_cons, Bool.or_eq_true]
  exact Or.inl (singleton_lookup_none c)

/-! ## `get_info.py`: `get_data_from_table` -/

/-- A pandas `DataFrame` with `ncols` positional columns; each row is a list of
`ncols` optional values (`none` models a null/NaN cell). -/
structure DataFrame where
  ncols : Nat
  rows : List (List (Option Nat))
deriving DecidableEq, Repr

/-- The column indices kept by `dropna(axis=1, how="all")`: a column survives
iff some row holds a non-null value there. -/
def keptCols (df : DataFrame) : List Nat :=
  (List.range df.ncols).filter fun j =>
    df.rows.any fun r => ((r.get? j).getD none).isSome

/-- The column-pruning step `data.dropna(axis=1, how="all")`: drop the
columns that are null in every row. -/
def dropNullCols (df : DataFrame) : DataFrame :=
  { ncols := (keptCols df).length
    rows := df.rows.map fun r => (keptCols df).map fun j => (r.get? j).getD none }

/-- The row-dropping step `data.dropna()` with pandas defaults
(`axis=0, how="any"`): keep exactly the rows with no null cell. -/
def dropAnyNullRows (df : DataFrame) : DataFrame :=
  { df with rows := df.rows.filter fun r => r.all Option.isSome }

/-- The empty frame returned on the no-data branches. -/
def emptyDF : DataFrame := ⟨0, []⟩

/-- The guard `data.empty or data.shape[1] == 0` (pandas `empty` is true
when either axis has length 0). -/
def isEmptyDF (df : DataFrame) : Bool :=
  df.rows.isEmpty || df.ncols == 0

/-- The cleaning steps of `get_data_from_table` applied to the loaded data:
drop fully-null columns, return empty on no data, drop rows with any null,
return empty if nothing remains. -/
def cleanData (df : DataFrame) : DataFrame :=
  let d1 := dropNullCols df
  if isEmptyDF d1 then emptyDF
  else
    let d2 := dropAnyNullRows d1
    if d2.rows.isEmpty then emptyDF else d2

/-- The global logging state touched by `logging.disable`. -/
structure LogState where
  disableLevel : Nat
deriving DecidableEq, Repr

/-- The logging level CRITICAL. -/
def CRITICAL : Nat := 50

/-- The logging level NOTSET. -/
def NOTSET : Nat := 0

/-- The logging state in effect when the `try` body starts: `verbose=False`
runs `logging.disable(logging.CRITICAL)` first. -/
def entryLogState (verbose : Bool) (s : LogState) : LogState :=
  if verbose then s else ⟨CRITICAL⟩

/-- The embedding of `get_data_from_table`. The extract/transform/load
pipeline (external modules not part of this file) is the parameter
`pipeline`: `.error e` models an exception raised inside the `try` block,
`.ok df` the loaded data handed to the cleaning steps. The returned pair is
the outcome of the function and the global logging state after the `finally`
block ran. -/
def get_data_from_table (verbose : Bool) (pipeline : Except String DataFrame)
    (s : LogState) : Except String DataFrame × LogState :=
  let s1 := entryLogState verbose s
  let result : Except String DataFrame :=
    match pipeline with
    | .error e => .error e
    | .ok data => .ok (cleanData data)
  let s2 := if verbose then s1 else ⟨NOTSET⟩
  (result, s2)

/-! ## `transform_columns.py`: `load_json` -/

/-- Errors that a mapping load can produce. `valueError` is the explicit
`ValueError` for an unsupported language; the rest model exceptions raised
while opening and decoding the JSON file. -/
inductive LoadError where
  | valueError
  | fileNotFound
  | decodeError
  | other
deriving DecidableEq, Repr

/-- The `json_paths` dict: language to path of the mapping file. -/
def json_paths : List (String × String) :=
  [("english", "columns_translated_english.json"),
   ("portuguese", "columns_translated_portuguese.json")]

/-- The embedding of `load_json`. The filesystem is the parameter `fs`,
mapping a path to the outcome of opening and JSON-decoding that file. The
second component of the result is the log emitted by the call. -/
def load_json (fs : String → Except LoadError (List (String × String)))
    (language : String) : Except LoadError (List (String × String)) × List String :=
  match json_paths.lookup language with
  | none => (.error .valueError, [])
  | some path =>
    match fs path with
    | .ok m => (.ok m, ["info: column mapping loaded"])
    | .error e => (.error e, ["error: mapping load failed"])

/-! ## `transform_columns.py`: `rename_db_columns` -/

/-- Errors the database engine can raise for an `ALTER TABLE ... RENAME
COLUMN` statement. -/
inductive DBError where
  | duplicateColumn (c : String)
  | missingColumn (c : String)
deriving DecidableEq, Repr

/-- One rename statement against a schema (the ordered list of column
names): fails if the old name is absent or the new name already names
another column. -/
def renameColumn (schema : List String) (o n : String) :
    Except DBError (List String) :=
  if o ∈ schema then
    if n ∈ schema ∧ n ≠ o then .error (.duplicateColumn n)
    else .ok (schema.map fun c => if c = o then n else c)
  else .error (.missingColumn o)

/-- A DuckDB connection inside a transaction: `committed` is the on-disk
schema, `current` the uncommitted view the statements act on. -/
structure Conn where
  committed : List String
  current : List String
deriving DecidableEq, Repr

/-- The commit of the open transaction. -/
def Conn.commit (c : Conn) : Conn := ⟨c.current, c.current⟩

/-- The rollback of the open transaction. -/
def Conn.rollback (c : Conn) : Conn := ⟨c.committed, c.committed⟩

/-- Run a list of rename statements in order on the connection. On the first
failing statement the error and the connection at that point are returned,
as the `except` handler sees them. -/
def execStmts (conn : Conn) : List (String × String) → Except (DBError × Conn) Conn
  | [] => .ok conn
  | (o, n) :: rest =>
    match renameColumn conn.current o n with
    | .ok s => execStmts ⟨conn.committed, s⟩ rest
    | .error e => .error (e, conn)

/-- The statements issued by the accent-normalization loop: one rename per
existing column whose `unidecode` form differs from it, in schema order
(`existing_columns` is a dict keyed by the unique column names, iterated in
insertion order). -/
def normalizationStmts (uni : String → String) (schema : List String) :
    List (String × String) :=
  (schema.map fun c => (c, uni c)).filterMap fun p =>
    if p.1 = p.2 then none else some p

/-- The statements issued by the mapping loop: for each mapping entry whose
accent-stripped key occurs among the snapshot values
`existing_columns.values()`, rename that normalized name to the target. -/
def mappingStmts (uni : String → String) (existingVals : List String)
    (mapping : List (String × String)) : List (String × String) :=
  mapping.filterMap fun p =>
    if uni p.1 ∈ existingVals then some (uni p.1, p.2) else none

/-- The `unmapped_columns` list: mapping entries whose accent-stripped key
matches no snapshot value. -/
def unmappedCols (uni : String → String) (existingVals : List String)
    (mapping : List (String × String)) : List String :=
  mapping.filterMap fun p =>
    if uni p.1 ∈ existingVals then none else some p.1

/-- All rename statements one invocation executes, in execution order. -/
def plannedStmts (uni : String → String) (schema : List String)
    (mapping : List (String × String)) : List (String × String) :=
  normalizationStmts uni schema ++ mappingStmts uni (schema.map uni) mapping

/-- The error outcomes of `rename_db_columns`. -/
inductive RenError where
  | fileNotFound
  | loadError (e : LoadError)
  | dbError (e : DBError)
deriving DecidableEq, Repr

/-- Observable outcome of a `rename_db_columns` call: the exception
propagated to the caller (if any), the on-disk schema after the call, the
rename statements of the invocation, the recorded unmapped names, and
whether the unmapped-columns warning was logged. -/
structure RenResult where
  err : Option RenError
  finalSchema : List String
  stmts : List (String × String)
  unmapped : List String
  warned : Bool
deriving DecidableEq, Repr

/-- The `try`/`except` body of `rename_db_columns` once the mapping is
loaded: open a transaction on the schema, run both rename loops, commit and
report unmapped names on success, roll back and re-raise on a database
error. -/
def rename_db_columns_core (uni : String → String) (schema : List String)
    (mapping : List (String × String)) : RenResult :=
  let stmts := plannedStmts uni schema mapping
  let unmapped := unmappedCols uni (schema.map uni) mapping
  match execStmts ⟨schema, schema⟩ stmts with
  | .ok c => ⟨none, (Conn.commit c).committed, stmts, unmapped, !unmapped.isEmpty⟩
  | .error (e, c) => ⟨some (.dbError e), (Conn.rollback c).committed, stmts, unmapped, false⟩

/-- The embedding of `rename_db_columns`. `dbExists` is
`db_path.exists()`; `uni` is the external `unidecode.unidecode`; `fs` is the
filesystem seen by `load_json`. -/
def rename_db_columns (uni : String → String) (dbExists : Bool)
    (fs : String → Except LoadError (List (String × String)))
    (language : String) (schema : List String) : RenResult :=
  if dbExists then
    match (load_json fs language).1 with
    | .error e => ⟨some (.loadError e), schema, [], [], false⟩
    | .ok mapping => rename_db_columns_core uni schema mapping
  else ⟨some .fileNotFound, schema, [], [], false⟩

/-- A concrete accent-stripping function in the spirit of `unidecode`,
folding a few Portuguese accented letters to ASCII; used to instantiate the
parameter `uni` on concrete inputs. -/
def accentFold (c : Char) : Char :=
  if c = 'á' ∨ c = 'â' ∨ c = 'ã' then 'a'
  else if c = 'ç' then 'c'
  else if c = 'é' ∨ c = 'ê' then 'e'
  else if c = 'í' then 'i'
  else if c = 'ó' ∨ c = 'ô' ∨ c = 'õ' then 'o'
  else if c = 'ú' then 'u'
  else c

/-- The model of accent stripping on whole identifiers, via `accentFold`. -/
def unidec (s : String) : String := String.mk (s.data.map accentFold)

/-! ## Claims about `get_years` -/

/-- Claim C2: any disease string containing a character outside the characters of
the valid codes makes `get_years` return the fixed error string (an ordinary
return value), not a year listing. -/
theorem get_years_invalid_char (getFiles : String → List String)
    (disease : String) (c : Char) (hc : c ∈ disease.data)
    (_hout : c ∉ validCodeChars) :
    get_years getFiles disease = errorMsg := by
  have hne : disease ≠ "" := by
    intro h
    subst h
    have : (("" : String).data) = [] := rfl
    rw [this] at hc
    exact List.not_mem_nil c hc
  unfold get_years
  rw [invalidCheck_of_ne_empty disease hne]
  rfl

/-- Witness for C2 at a concrete invalid input. -/
theorem get_years_invalid_char_witness :
    '!' ∈ ("CHIK!" : String).data ∧ '!' ∉ validCodeChars ∧
      get_years (fun _ => []) "CHIK!" = errorMsg :=
  ⟨by decide, by decide,
    get_years_invalid_char (fun _ => []) "CHIK!" '!' (by decide) (by decide)⟩

theorem availableMsg_head (a y : String) :
    (("The available data for " ++ a ++ " is from the years: " ++ y ++ ".")).data.head? =
      some 'T' := by
  simp only [String.data_append]
  rfl

/-- Claim C3: the membership check of `get_years` tests each character of the
input against the four-letter dict keys, so every non-empty disease string —
the valid codes DENG, ZIKA, CHIK included — gets the fixed error message,
and only the empty string passes the check. -/
theorem get_years_always_error :
    (∀ (getFiles : String → List String) (disease : String), disease ≠ "" →
      get_years getFiles disease = errorMsg) ∧
    (∀ getFiles : String → List String, get_years getFiles "" ≠ errorMsg) := by
  constructor
  · intro getFiles disease hne
    unfold get_years
    rw [invalidCheck_of_ne_empty disease hne]
    rfl
  · intro getFiles h
    have hck : invalidCheck "" = false := rfl
    rw [get_years, hck] at h
    have h2 : ("The available data for " ++
        String.intercalate ", " (availableNames "") ++ " is from the years: " ++
        String.intercalate ", " ((yearsOf (getFiles "")).map toString) ++ ".") =
        errorMsg := by simpa using h
    have hd : ("The available data for " ++
        String.intercalate ", " (availableNames "") ++ " is from the years: " ++
        String.intercalate ", " ((yearsOf (getFiles "")).map toString) ++
        ".").data.head? = errorMsg.data.head? := by rw [h2]
    rw [availableMsg_head] at hd
    have he : errorMsg.data.head? = some 'E' := by decide
    rw [he] at hd
    simp at hd

/-- Witness for C3: the valid code DENG itself gets the error message, and
the empty string does not. -/
theorem get_years_always_error_witness :
    get_years (fun _ => []) "DENG" = errorMsg ∧
      get_years (fun _ => []) "" ≠ errorMsg :=
  ⟨get_years_always_error.1 (fun _ => []) "DENG" (by decide),
    get_years_always_error.2 (fun _ => [])⟩

/-! ## Claims about `load_json` and `rename_db_columns` -/

/-- Claim C8: an unsupported language raises `ValueError` before any file access
(the outcome is the same under every filesystem, with no file read and no
log); for a supported language, a failing load is logged and the original
error is re-raised. -/
theorem load_json_spec :
    (∀ (language : String)
        (fs fs' : String → Except LoadError (List (String × String))),
      language ≠ "english" → language ≠ "portuguese" →
      load_json fs language = (.error .valueError, []) ∧
        load_json fs language = load_json fs' language) ∧
    (∀ (language path : String)
        (fs : String → Except LoadError (List (String × String)))
        (e : LoadError),
      json_paths.lookup language = some path → fs path = .error e →
      load_json fs language = (.error e, ["error: mapping load failed"])) := by
  constructor
  · intro language fs fs' h1 h2
    have hb1 : (language == "english") = false := beq_eq_false_iff_ne.mpr h1
    have hb2 : (language == "portuguese") = false := beq_eq_false_iff_ne.mpr h2
    have hlook : json_paths.lookup language = none := by
      simp only [json_paths, List.lookup, hb1, hb2]
    constructor
    · simp only [load_json, hlook]
    · simp only [load_json, hlook]
  · intro language path fs e hlook hfs
    simp only [load_json, hlook, hfs]

/-- Witness for C8 at a concrete unsupported language and a concrete failing
filesystem. -/
theorem load_json_spec_witness :
    load_json (fun _ => .error .fileNotFound) "german" =
        (.error .valueError, []) ∧
      load_json (fun _ => .error .fileNotFound) "english" =
        (.error .fileNotFound, ["error: mapping load failed"]) :=
  ⟨(load_json_spec.1 "german" (fun _ => .error .fileNotFound)
      (fun _ => .error .fileNotFound) (by decide) (by decide)).1,
    load_json_spec.2 "english" "columns_translated_english.json"
      (fun _ => .error .fileNotFound) .fileNotFound (by decide) rfl⟩

/-- Claim C7: a missing database file makes `rename_db_columns` fail with
`FileNotFoundError` at once — same outcome under every filesystem (so the
mapping is never loaded), no statement issued, and the schema untouched. -/
theorem rename_db_columns_missing_db (uni : String → String)
    (fs fs' : String → Except LoadError (List (String × String)))
    (language : String) (schema : List String) :
    rename_db_columns uni false fs language schema =
        ⟨some .fileNotFound, schema, [], [], false⟩ ∧
      rename_db_columns uni false fs language schema =
        rename_db_columns uni false fs' language schema :=
  ⟨rfl, rfl⟩

/-! ## Claims about `get_data_from_table` -/

/-- Claim C10: with `verbose=False` the call disables logging at `CRITICAL` on
entry and the `finally` block resets the disable level to `NOTSET` whatever
the pipeline did — on errors included, which are re-raised; with
`verbose=True` the logging state is left untouched. -/
theorem get_data_from_table_logging :
    (∀ (pipeline : Except String DataFrame) (s : LogState),
      entryLogState false s = ⟨CRITICAL⟩ ∧
        (get_data_from_table false pipeline s).2 = ⟨NOTSET⟩) ∧
    (∀ (pipeline : Except String DataFrame) (s : LogState),
      entryLogState true s = s ∧ (get_data_from_table true pipeline s).2 = s) ∧
    (∀ (verbose : Bool) (e : String) (s : LogState),
      (get_data_from_table verbose (.error e) s).1 = .error e) := by
  refine ⟨fun p s => ⟨rfl, rfl⟩, fun p s => ⟨rfl, rfl⟩, fun v e s => ?_⟩
  cases v <;> rfl

/-- Claim C4: on a schema whose column names all equal their accent-stripped form,
the accent-normalization stage issues no rename statement, running it
changes nothing, and the statements of the whole invocation are just the
mapping-stage ones. -/
theorem normalization_idempotent (uni : String → String) (schema : List String)
    (mapping : List (String × String)) (h : ∀ c ∈ schema, uni c = c) :
    normalizationStmts uni schema = [] ∧
      execStmts ⟨schema, schema⟩ (normalizationStmts uni schema) =
        .ok ⟨schema, schema⟩ ∧
      plannedStmts uni schema mapping =
        mappingStmts uni (schema.map uni) mapping := by
  have h0 : normalizationStmts uni schema = [] := by
    rw [normalizationStmts, List.filterMap_eq_nil_iff]
    intro p hp
    obtain ⟨c, hc, rfl⟩ := List.mem_map.mp hp
    simp [h c hc]
  refine ⟨h0, by rw [h0]; rfl, ?_⟩
  rw [plannedStmts, h0, List.nil_append]

/-- Witness for C4 on a concrete accent-free schema. -/
theorem normalization_idempotent_witness :
    (∀ c ∈ ["idade", "municipio"], unidec c = c) ∧
      normalizationStmts unidec ["idade", "municipio"] = [] :=
  ⟨by decide,
    (normalization_idempotent unidec ["idade", "municipio"] [] (by decide)).1⟩

theorem execStmts_committed (stmts : List (String × String)) :
    ∀ conn c' : Conn,
      (execStmts conn stmts = .ok c' → c'.committed = conn.committed) ∧
      (∀ e, execStmts conn stmts = .error (e, c') → c'.committed = conn.committed) := by
  induction stmts with
  | nil =>
    intro conn c'
    constructor
    · intro h
      simp only [execStmts, Except.ok.injEq] at h
      rw [← h]
    · intro e h
      simp only [execStmts] at h
      cases h
  | cons p rest ih =>
    obtain ⟨o, n⟩ := p
    intro conn c'
    constructor
    · intro h
      simp only [execStmts] at h
      cases hr : renameColumn conn.current o n with
      | ok s =>
        rw [hr] at h
        exact (ih ⟨conn.committed, s⟩ c').1 h
      | error e =>
        rw [hr] at h
        cases h
    · intro e h
      simp only [execStmts] at h
      cases hr : renameColumn conn.current o n with
      | ok s =>
        rw [hr] at h
        exact (ih ⟨conn.committed, s⟩ c').2 e h
      | error e' =>
        rw [hr] at h
        simp only [Except.error.injEq, Prod.mk.injEq] at h
        rw [← h.2]

/-- Claim C1: if a statement inside the transaction fails, `rename_db_columns`
rolls back, re-raises the database error, and the on-disk schema is exactly
the original one — no partial set of renames persists. -/
theorem rename_db_columns_rollback (uni : String → String)
    (schema : List String) (mapping : List (String × String)) (e : DBError)
    (c : Conn)
    (h : execStmts ⟨schema, schema⟩ (plannedStmts uni schema mapping) =
      .error (e, c)) :
    (rename_db_columns_core uni schema mapping).err = some (.dbError e) ∧
      (rename_db_columns_core uni schema mapping).finalSchema = schema := by
  have hc : c.committed = schema :=
    (execStmts_committed (plannedStmts uni schema mapping) ⟨schema, schema⟩ c).2 e h
  constructor
  · simp only [rename_db_columns_core, h]
  · simp only [rename_db_columns_core, h, Conn.rollback, hc]

/-- Witness for C1: the first rename commits `á → a` into the uncommitted
view, the second collides with column `b` and fails, and the final schema is
the untouched original. -/
theorem rename_db_columns_rollback_witness :
    (rename_db_columns_core unidec ["á", "b"] [("á", "b")]).err =
        some (.dbError (.duplicateColumn "b")) ∧
      (rename_db_columns_core unidec ["á", "b"] [("á", "b")]).finalSchema =
        ["á", "b"] :=
  rename_db_columns_rollback unidec ["á", "b"] [("á", "b")]
    (.duplicateColumn "b") ⟨["á", "b"], ["a", "b"]⟩ rfl

/-- Claim C5: a mapping entry whose accent-stripped key matches no existing column
adds no rename statement, is recorded among the unmapped names, changes
neither the outcome nor the final schema of the invocation, and on success
the unmapped-columns warning is reported. -/
theorem rename_db_unmatched_entry (uni : String → String)
    (schema : List String) (m₁ m₂ : List (String × String)) (old nw : String)
    (h : uni old ∉ schema.map uni) :
    mappingStmts uni (schema.map uni) (m₁ ++ (old, nw) :: m₂) =
        mappingStmts uni (schema.map uni) (m₁ ++ m₂) ∧
      old ∈ unmappedCols uni (schema.map uni) (m₁ ++ (old, nw) :: m₂) ∧
      (rename_db_columns_core uni schema (m₁ ++ (old, nw) :: m₂)).err =
        (rename_db_columns_core uni schema (m₁ ++ m₂)).err ∧
      (rename_db_columns_core uni schema (m₁ ++ (old, nw) :: m₂)).finalSchema =
        (rename_db_columns_core uni schema (m₁ ++ m₂)).finalSchema ∧
      ((rename_db_columns_core uni schema (m₁ ++ (old, nw) :: m₂)).err = none →
        (rename_db_columns_core uni schema (m₁ ++ (old, nw) :: m₂)).warned = true) := by
  have hs : mappingStmts uni (schema.map uni) (m₁ ++ (old, nw) :: m₂) =
      mappingStmts uni (schema.map uni) (m₁ ++ m₂) := by
    simp only [mappingStmts, List.filterMap_append, List.filterMap_cons]
    rw [if_neg h]
  have hu : old ∈ unmappedCols uni (schema.map uni) (m₁ ++ (old, nw) :: m₂) := by
    simp only [unmappedCols, List.filterMap_append, List.filterMap_cons]
    rw [if_neg h]
    simp
  have hp : plannedStmts uni schema (m₁ ++ (old, nw) :: m₂) =
      plannedStmts uni schema (m₁ ++ m₂) := by
    rw [plannedStmts, plannedStmts, hs]
  refine ⟨hs, hu, ?_, ?_, ?_⟩
  · simp only [rename_db_columns_core, hp]
    cases hexec : execStmts ⟨schema, schema⟩ (plannedStmts uni schema (m₁ ++ m₂)) with
    | ok c => simp
    | error p =>
      obtain ⟨e, c⟩ := p
      simp
  · simp only [rename_db_columns_core, hp]
    cases hexec : execStmts ⟨schema, schema⟩ (plannedStmts uni schema (m₁ ++ m₂)) with
    | ok c => simp
    | error p =>
      obtain ⟨e, c⟩ := p
      simp
  · intro herr
    have hne : unmappedCols uni (schema.map uni) (m₁ ++ (old, nw) :: m₂) ≠ [] :=
      List.ne_nil_of_mem hu
    simp only [rename_db_columns_core] at herr ⊢
    cases hexec : execStmts ⟨schema, schema⟩
        (plannedStmts uni schema (m₁ ++ (old, nw) :: m₂)) with
    | ok c => simp [hexec, List.isEmpty_eq_false.mpr hne]
    | error p =>
      obtain ⟨e, c⟩ := p
      rw [hexec] at herr
      simp at herr

/-- Witness for C5: the single entry `zz → b` matches nothing, is reported
unmapped, and the call still succeeds. -/
theorem rename_db_unmatched_entry_witness :
    unidec "zz" ∉ (["a"].map unidec) ∧
      "zz" ∈ unmappedCols unidec (["a"].map unidec) ([] ++ ("zz", "b") :: []) ∧
      (rename_db_columns_core unidec ["a"] ([] ++ ("zz", "b") :: [])).err = none :=
  ⟨by decide,
    (rename_db_unmatched_entry unidec ["a"] [] [] "zz" "b" (by decide)).2.1,
    rfl⟩

/-- Claim C6 counterexample: in the frame `[[1, null], [2, 3]]` no column is fully
null, the first row still holds the non-null value `1` after
column-pruning, yet the cleaning drops it — `dropna()` removes every row
containing any null, not only the fully-null ones. -/
theorem cleanData_counterexample :
    ¬ (∀ r ∈ (dropNullCols ⟨2, [[some 1, none], [some 2, some 3]]⟩).rows,
        (r.any fun x => x.isSome) = true →
          r ∈ (cleanData ⟨2, [[some 1, none], [some 2, some 3]]⟩).rows) := by
  decide

/-- Claim C6 as amended: the cleaning first drops the fully-null columns, then
drops every row containing at least one null; a row of the pruned result
appears in the returned table exactly when all its values are non-null. -/
theorem cleanData_rows_spec (df : DataFrame) :
    (∀ r ∈ (dropNullCols df).rows, r ≠ [] → r.all Option.isSome = true →
      r ∈ (cleanData df).rows) ∧
    (∀ r ∈ (cleanData df).rows,
      r ∈ (dropNullCols df).rows ∧ r.all Option.isSome = true) := by
  constructor
  · intro r hr hne hall
    have hrows : (dropNullCols df).rows ≠ [] := List.ne_nil_of_mem hr
    have hlen : r.length = (keptCols df).length := by
      obtain ⟨row, _, hrow⟩ := List.mem_map.mp hr
      rw [← hrow, List.length_map]
    have hncols : ((dropNullCols df).ncols == 0) = false := by
      have : r.length ≠ 0 := fun h0 => hne (List.eq_nil_of_length_eq_zero h0)
      rw [hlen] at this
      simpa [dropNullCols] using this
    have hempty : isEmptyDF (dropNullCols df) = false := by
      rw [isEmptyDF, List.isEmpty_eq_false.mpr hrows, hncols]
      rfl
    have hrd2 : r ∈ (dropAnyNullRows (dropNullCols df)).rows :=
      List.mem_filter.mpr ⟨hr, hall⟩
    have hd2 : (dropAnyNullRows (dropNullCols df)).rows.isEmpty = false :=
      List.isEmpty_eq_false.mpr (List.ne_nil_of_mem hrd2)
    simp only [cleanData, hempty, hd2]
    simpa using hrd2
  · intro r hr
    simp only [cleanData] at hr
    by_cases h1 : isEmptyDF (dropNullCols df) = true
    · rw [if_pos h1] at hr
      simp [emptyDF] at hr
    · rw [if_neg h1] at hr
      by_cases h2 : (dropAnyNullRows (dropNullCols df)).rows.isEmpty = true
      · rw [if_pos h2] at hr
        simp [emptyDF] at hr
      · rw [if_neg h2] at hr
        exact List.mem_filter.mp hr

/-- Witness for C6 (amended) on a concrete one-cell frame. -/
theorem cleanData_rows_spec_witness :
    [some 5] ∈ (cleanData ⟨1, [[some 5]]⟩).rows :=
  (cleanData_rows_spec ⟨1, [[some 5]]⟩).1 [some 5] (by decide) (by decide)
    (by decide)

/-! ## Claims about the year parsing of `get_years` -/

theorem brMatch_isSome_cons (c : Char) (t : List Char)
    (h : (brMatch t).isSome) : (brMatch (c :: t)).isSome := by
  match t with
  | [] => simp [brMatch] at h
  | [a] => simp [brMatch] at h
  | [a, b] => simp [brMatch] at h
  | t1 :: t2 :: t3 :: tr =>
    rw [brMatch]
    split
    · simp
    · exact h

theorem brMatch_some_shape (l : List Char) (h : (brMatch l).isSome) :
    ∃ l₁ a b l₂, l = l₁ ++ 'B' :: 'R' :: a :: b :: l₂ ∧
      a.isDigit = true ∧ b.isDigit = true := by
  induction l with
  | nil => simp [brMatch] at h
  | cons c t ih =>
    rcases t with _ | ⟨t1, _ | ⟨t2, _ | ⟨t3, tr⟩⟩⟩
    · simp [brMatch] at h
    · simp [brMatch] at h
    · simp [brMatch] at h
    · rw [brMatch] at h
      by_cases hf : isFragStart c t1 t2 t3 = true
      · have hfc := hf
        simp only [isFragStart, Bool.and_eq_true, decide_eq_true_eq] at hfc
        obtain ⟨⟨⟨hB, hR⟩, h2⟩, h3⟩ := hfc
        exact ⟨[], t2, t3, tr, by rw [hB, hR]; rfl, h2, h3⟩
      · rw [if_neg hf] at h
        obtain ⟨l₁, a, b, l₂, he, ha, hb⟩ := ih h
        exact ⟨c :: l₁, a, b, l₂, by rw [List.cons_append, ← he], ha, hb⟩

theorem brMatch_shape_isSome (l₁ : List Char) (a b : Char) (l₂ : List Char)
    (ha : a.isDigit = true) (hb : b.isDigit = true) :
    (brMatch (l₁ ++ 'B' :: 'R' :: a :: b :: l₂)).isSome := by
  induction l₁ with
  | nil =>
    rw [List.nil_append, brMatch, if_pos]
    · simp
    · simp [isFragStart, ha, hb]
  | cons c l₁' ih =>
    rw [List.cons_append]
    exact brMatch_isSome_cons c _ ih

theorem listShape3 (l : List Char) (x y z : Char) :
    ∃ t1 t2 t3 tr, l ++ [x, y, z] = t1 :: t2 :: t3 :: tr := by
  match l with
  | [] => exact ⟨x, y, z, [], rfl⟩
  | [c] => exact ⟨c, x, y, [z], rfl⟩
  | [c, d] => exact ⟨c, d, x, [y, z], rfl⟩
  | c :: d :: e :: l' => exact ⟨c, d, e, l' ++ [x, y, z], by simp⟩

theorem brMatch_leftmost (l₁ : List Char) (a b : Char) (l₂ : List Char)
    (ha : a.isDigit = true) (hb : b.isDigit = true)
    (hnone : brMatch (l₁ ++ ['B', 'R', a]) = none) :
    brMatch (l₁ ++ 'B' :: 'R' :: a :: b :: l₂) = some (fragVal a b) := by
  induction l₁ with
  | nil =>
    rw [List.nil_append, brMatch, if_pos]
    simp [isFragStart, ha, hb]
  | cons c l₁' ih =>
    obtain ⟨t1, t2, t3, tr, ht⟩ := listShape3 l₁' 'B' 'R' a
    have hsplit : l₁' ++ 'B' :: 'R' :: a :: b :: l₂ = t1 :: t2 :: t3 :: (tr ++ b :: l₂) := by
      have hx : l₁' ++ 'B' :: 'R' :: a :: b :: l₂ = (l₁' ++ ['B', 'R', a]) ++ b :: l₂ := by
        simp
      rw [hx, ht]
      simp
    rw [List.cons_append, ht, brMatch] at hnone
    rw [List.cons_append, hsplit, brMatch]
    split at hnone
    · cases hnone
    · rename_i hfrag
      rw [if_neg hfrag, ← hsplit]
      exact ih (by rw [ht]; exact hnone)

/-- Claim C9: the year list of `get_years` is sorted ascending; every file whose
name matches `BR` followed by two digits contributes its matched value plus
2000, and nothing else contributes; a match exists exactly when the name
contains `B`, `R` and two digit characters consecutively, and the match is
the leftmost such fragment, its captured value being the two-digit
number. -/
theorem get_years_year_derivation (files : List String) :
    List.Sorted (· ≤ ·) (yearsOf files) ∧
      (∀ f ∈ files, ∀ v, searchBR f = some v → v + 2000 ∈ yearsOf files) ∧
      (∀ y ∈ yearsOf files,
        ∃ f ∈ files, ∃ v, searchBR f = some v ∧ y = v + 2000) ∧
      (∀ f : String, (searchBR f).isSome = true ↔
        ∃ l₁ a b l₂, f.data = l₁ ++ 'B' :: 'R' :: a :: b :: l₂ ∧
          a.isDigit = true ∧ b.isDigit = true) ∧
      (∀ (f : String) (l₁ : List Char) (a b : Char) (l₂ : List Char),
        f.data = l₁ ++ 'B' :: 'R' :: a :: b :: l₂ → a.isDigit = true →
        b.isDigit = true → brMatch (l₁ ++ ['B', 'R', a]) = none →
        searchBR f = some (fragVal a b)) := by
  refine ⟨List.sorted_insertionSort _ _, ?_, ?_, ?_, ?_⟩
  · intro f hf v hv
    rw [yearsOf, (List.perm_insertionSort _ _).mem_iff, List.mem_filterMap]
    exact ⟨f, hf, by rw [hv]; rfl⟩
  · intro y hy
    rw [yearsOf, (List.perm_insertionSort _ _).mem_iff, List.mem_filterMap] at hy
    obtain ⟨f, hf, hv⟩ := hy
    obtain ⟨v, hv1, hv2⟩ := Option.map_eq_some'.mp hv
    exact ⟨f, hf, v, hv1, hv2.symm⟩
  · intro f
    constructor
    · intro h
      exact brMatch_some_shape f.data h
    · rintro ⟨l₁, a, b, l₂, he, ha, hb⟩
      rw [searchBR, he]
      exact brMatch_shape_isSome l₁ a b l₂ ha hb
  · intro f l₁ a b l₂ he ha hb hnone
    rw [searchBR, he]
    exact brMatch_leftmost l₁ a b l₂ ha hb hnone

/-- Witness for C9 on a concrete SINAN-style filename. -/
theorem get_years_year_derivation_witness :
    2023 ∈ yearsOf ["CHIKBR23.parquet", "notes.txt"] ∧
      searchBR "CHIKBR23.parquet" = some 23 ∧ searchBR "notes.txt" = none :=
  ⟨(get_years_year_derivation ["CHIKBR23.parquet", "notes.txt"]).2.1
      "CHIKBR23.parquet" (by decide) 23 (by decide),
    by decide, by decide⟩
